import Mathlib

/-!
Verification of the container locator / signing-block injector in
`editor/signv2/apk.go` (package `signv2`).

The Go code is shallowly embedded: a byte buffer becomes a `Buf` (a length
together with a total byte function; all real buffers have bytes `< 256`),
little-endian reads become explicit sums, and every Go slice operation that
can panic at runtime (out-of-range index, negative slice bound after the
`uint64`→`int64` round trip, `make` with a wrapped-around length) is made
explicit as the `Outcome.crash` result of the locator.  The standard-library
`zip.NewReader` entry enumeration (out of scope for this package, used only
to classify member names) is a parameter `EntryReader`; `none` models the Go
reader returning a non-nil error.
-/

/-- A raw byte buffer: `size` bytes, `data k` is the byte at offset `k`
(only offsets `< size` are ever meaningful; the locator never reads out of
range without first crashing, mirroring Go slice semantics). -/
structure Buf where
  size : Nat
  data : Nat → Nat

/-- Build a buffer from an explicit list of bytes (out-of-range reads give 0,
but the model never relies on them). -/
def Buf.ofList (l : List Nat) : Buf :=
  ⟨l.length, fun k => l.getD k 0⟩

/-- Little-endian 16-bit read, `binary.LittleEndian.Uint16(raw[k:k+2])`. -/
def readU16 (b : Buf) (k : Nat) : Nat :=
  b.data k + 256 * b.data (k + 1)

/-- Little-endian 32-bit read, `binary.LittleEndian.Uint32(raw[k:k+4])`. -/
def readU32 (b : Buf) (k : Nat) : Nat :=
  b.data k + 256 * b.data (k + 1) + 65536 * b.data (k + 2) +
    16777216 * b.data (k + 3)

/-- Little-endian 64-bit read, `binary.LittleEndian.Uint64(raw[k:k+8])`. -/
def readU64 (b : Buf) (k : Nat) : Nat :=
  b.data k + 256 * b.data (k + 1) + 65536 * b.data (k + 2) +
    16777216 * b.data (k + 3) + 4294967296 * b.data (k + 4) +
    1099511627776 * b.data (k + 5) + 281474976710656 * b.data (k + 6) +
    72057594037927936 * b.data (k + 7)

/-- The 16 ASCII bytes of the literal `"APK Sig Block 42"`. -/
def sigMagic : List Nat :=
  [65, 80, 75, 32, 83, 105, 103, 32, 66, 108, 111, 99, 107, 32, 52, 50]

/-- Byte `j` of the signing-block magic. -/
def sigMagicByte (j : Nat) : Nat := sigMagic.getD j 0

/-- The Go comparison `string(z.raw[off:off+16]) == "APK Sig Block 42"`. -/
def sigMagicCheck (b : Buf) (off : Nat) : Bool :=
  (List.range 16).all fun j => b.data (off + j) == sigMagicByte j

/-- The `ApkSign` struct of apk.go (field `raw` holds the private copy of the
input bytes; in the pure model the copy is the value itself). -/
structure ApkSign where
  isAPK : Bool
  isV2Signed : Bool
  raw : Buf
  size : Nat
  eocdOffset : Nat
  cdOffset : Nat
  asv2Offset : Nat
  rawASv2 : Buf

/-- The empty descriptor (zero value of the Go struct). -/
def defaultApk : ApkSign :=
  ⟨false, false, ⟨0, fun _ => 0⟩, 0, 0, 0, 0, ⟨0, fun _ => 0⟩⟩

/-- The classified fatal failures of `NewApkSign` (spec taxonomy names). -/
inductive LocErr where
  | tooSmall
  | notAZip
  | cdNotAdjacent
  | entryReadFailure
deriving DecidableEq

/-- Result of running the locator: a descriptor, a classified error, or a Go
runtime panic (slice bounds out of range / `make` with a wrapped length). -/
inductive Outcome where
  | ok (z : ApkSign)
  | err (e : LocErr)
  | crash

/-- Projection: the descriptor of a successful locate, if any. -/
def Outcome.getOk : Outcome → Option ApkSign
  | .ok z => some z
  | _ => none

/-- Projection: the classified error, if any. -/
def Outcome.errOf : Outcome → Option LocErr
  | .err e => some e
  | _ => none

/-- Whether the run ended in a Go runtime panic. -/
def Outcome.isCrash : Outcome → Bool
  | .crash => true
  | _ => false

/-- Projection: `IsV2Signed` of a successful locate. -/
def Outcome.isV2Of (o : Outcome) : Option Bool := o.getOk.map (·.isV2Signed)

/-- Projection: `asv2Offset` of a successful locate. -/
def Outcome.asv2Of (o : Outcome) : Option Nat := o.getOk.map (·.asv2Offset)

/-- Projection: `cdOffset` of a successful locate. -/
def Outcome.cdOf (o : Outcome) : Option Nat := o.getOk.map (·.cdOffset)

/-- Projection: `eocdOffset` of a successful locate. -/
def Outcome.eocdOf (o : Outcome) : Option Nat := o.getOk.map (·.eocdOffset)

/-- Projection: extracted payload length of a successful locate. -/
def Outcome.payloadLenOf (o : Outcome) : Option Nat :=
  o.getOk.map (·.rawASv2.size)

/-- Projection: byte `k` of the extracted payload of a successful locate. -/
def Outcome.payloadByteOf (o : Outcome) (k : Nat) : Option Nat :=
  o.getOk.map (·.rawASv2.data k)

/-- The out-of-scope entry-table reader (`zip.NewReader` plus the iteration
over `r.File`): given the archive bytes it either fails (`none`, the Go
reader's non-nil error) or yields the member names. -/
def EntryReader : Type := Buf → Option (List String)

/-- An entry reader that always succeeds with no members. -/
def someReader : EntryReader := fun _ => some []

/-- The `IsAPK` classification: the three conventional member names are all
present (the `.SF`/`.RSA`/`.DSA` suffix scans in the Go loop are dead local
variables, never stored, and are omitted). -/
def isApkNames (names : List String) : Bool :=
  names.contains "classes.dex" && names.contains "AndroidManifest.xml" &&
    names.contains "resources.arsc"

/-- The Go uint64 computation `z.cdOffset - postSize - 8` (apk.go line 134):
the subtraction wraps modulo 2^64.  For every 8-byte field value (below
2^64) this equals `(cdOffset - postSize - 8) mod 2^64`. -/
def wrapSub (cd post : Nat) : Nat :=
  (cd + 36893488147419103232 - post - 8) % 18446744073709551616

/-- One iteration of the backward scan of `NewApkSign` at comment length `i`
(`next` is the value the loop produces for `i+1`).  Mirrors lines 59-149 of
apk.go, with each Go panic site made explicit:
* `raw[start:start+22]` with `start = size-22-i` panics when `start < 0`;
* `raw[int64(eocdCD):]` panics when `eocdCD > size`, and
  `binary.LittleEndian.Uint32` on it panics when fewer than 4 bytes remain
  (the single guard `size < eocdCD + 4` covers both sites);
* `raw[int64(cdOffset)-16 : cdOffset]` panics when `cdOffset < 16`;
* `raw[int64(cdOffset-16-8) : ...]` panics when `cdOffset < 24` (the uint64
  subtraction wraps to at least 2^64 - 24, so the int64 reinterpretation is
  negative);
* `raw[int64(cdOffset-postSize-8) : start+8]`: the uint64 subtraction wraps
  modulo 2^64 (`wrapSub`); the slice panics when the int64 reinterpretation
  is negative (wrapped value at least 2^63) or fewer than 8 bytes remain,
  but a `postSize` close to 2^64 can wrap back INTO bounds, in which case
  Go reads `preSize` at the wrapped offset and, on mismatch, falls through
  to return an unsigned descriptor;
* `make([]byte, preSize-24)` panics when `preSize < 24` (the uint64 length
  wraps) or when `preSize - 24` is at least 2^63 (len out of range) — the
  in-bounds-wrap case with matching size fields always lands here, since
  staying in bounds forces `postSize ≥ 2^64 + cdOffset - size`.
The `uint16(i)` cast in the comment-length echo is `i % 65536`. -/
def scanStep (reader : EntryReader) (b : Buf) (i : Nat) (next : Outcome) :
    Outcome :=
  if b.size < 22 + i then .crash
  else
    let start := b.size - 22 - i
    if readU32 b start ≠ 0x06054b50 then next
    else if readU16 b (start + 20) ≠ i % 65536 then next
    else
      let candidateEOCD := b.size - 22 - i
      let eocdCD := readU32 b (start + 16)
      let eocdCDLen := readU32 b (start + 12)
      if b.size < eocdCD + 4 then .crash
      else if readU32 b eocdCD ≠ 0x02014b50 then next
      else if eocdCD + eocdCDLen ≠ candidateEOCD then .err .cdNotAdjacent
      else
        match reader b with
        | none => .err .entryReadFailure
        | some names =>
          if eocdCD < 16 then .crash
          else if sigMagicCheck b (eocdCD - 16) then
            if eocdCD < 24 then .crash
            else
              let postSize := readU64 b (eocdCD - 24)
              let wrapped := wrapSub eocdCD postSize
              if 9223372036854775808 ≤ wrapped ∨ b.size < wrapped + 8 then
                .crash
              else
                let preSize := readU64 b wrapped
                if preSize = postSize then
                  if preSize < 24 ∨ 9223372036854775808 ≤ preSize - 24 then
                    .crash
                  else
                    let asv2 := wrapped
                    .ok ⟨isApkNames names, decide (0 < asv2), b, b.size,
                      candidateEOCD, eocdCD, asv2,
                      ⟨preSize - 24,
                       fun k => if k < preSize - 24 then b.data (asv2 + 8 + k)
                                else 0⟩⟩
                else
                  .ok ⟨isApkNames names, false, b, b.size, candidateEOCD,
                    eocdCD, 0, ⟨0, fun _ => 0⟩⟩
          else
            .ok ⟨isApkNames names, false, b, b.size, candidateEOCD, eocdCD, 0,
              ⟨0, fun _ => 0⟩⟩

/-- The backward scan `for i := uint32(0); i < 65535; i++` as a recursion on
the remaining iteration count: `scanLoop reader b fuel i` runs iterations
`i, i+1, ...` while `fuel` lasts; exhausting the loop is the
`"input is not a zip"` error.  The top-level call is `fuel = 65535`, giving
exactly the iterations `i = 0 .. 65534` of the Go loop. -/
def scanLoop (reader : EntryReader) (b : Buf) : Nat → Nat → Outcome
  | 0, _ => .err .notAZip
  | fuel + 1, i => scanStep reader b i (scanLoop reader b fuel (i + 1))

/-- `NewApkSign` (apk.go lines 40-154): reject buffers under 22 bytes, then
run the backward EOCD scan. -/
def NewApkSign (reader : EntryReader) (buf : Buf) : Outcome :=
  if buf.size < 22 then .err .tooSmall else scanLoop reader buf 65535 0

/-- The insertion point of `InjectBeforeCD`: `asv2Offset` if a signing block
exists, else `cdOffset` (`endOfFilesSection` in the Go code). -/
def eofOf (z : ApkSign) : Nat :=
  if 0 < z.asv2Offset then z.asv2Offset else z.cdOffset

/-- The layout facts every locator-produced descriptor satisfies; exactly the
condition under which the slice operations of `InjectBeforeCD` cannot panic
(`z.size = z.raw.size` holds by construction in `NewApkSign`, both fields
being set from the same input). -/
def ValidOffsets (z : ApkSign) : Prop :=
  z.asv2Offset ≤ z.cdOffset ∧ z.cdOffset ≤ z.eocdOffset ∧
    z.eocdOffset + 20 ≤ z.size ∧ z.size = z.raw.size

instance (z : ApkSign) : Decidable (ValidOffsets z) := by
  unfold ValidOffsets; infer_instance

/-- The buffer built by `InjectBeforeCD` (apk.go lines 194-216):
`raw[0:eof] ++ data ++ raw[cdOffset:eocdOffset] ++ patchedEOCD`, where
`eof` is the insertion point, `newSize` is
`len(raw) - (cdOffset - eof) + len(data)` (the Go int64 arithmetic on
lines 196-202), and `patchedEOCD` is `raw[eocdOffset:size]` with bytes
16..19 overwritten by `PutUint32(newEocd[16:], uint32(eof+len(data)))`,
whose byte `j` is `(eof + len data) / 256^j % 256`. -/
def injectedBuf (z : ApkSign) (data : Buf) : Buf :=
  let eof := eofOf z
  let newSize := z.raw.size - (z.cdOffset - eof) + data.size
  ⟨newSize, fun k =>
    if k < eof then z.raw.data k
    else if k < eof + data.size then data.data (k - eof)
    else if k < eof + data.size + (z.eocdOffset - z.cdOffset) then
      z.raw.data (k - (eof + data.size) + z.cdOffset)
    else if k < newSize then
      let rel := k - (eof + data.size + (z.eocdOffset - z.cdOffset))
      if 16 ≤ rel ∧ rel < 20 then
        (eof + data.size) / 256 ^ (rel - 16) % 256
      else z.raw.data (z.eocdOffset + rel)
    else 0⟩

/-- `InjectBeforeCD` (apk.go lines 194-216).  For a descriptor satisfying
`ValidOffsets` the Go function performs no panicking slice operation and
returns exactly `injectedBuf`; a descriptor violating it (never produced by
`NewApkSign`) makes the Go code panic on a slice bound or `make` length,
modelled as `none`. -/
def InjectBeforeCD (z : ApkSign) (data : Buf) : Option Buf :=
  if ValidOffsets z then some (injectedBuf z data) else none

/-- The injected buffer (empty buffer when the descriptor is out of
contract). -/
def injectResult (z : ApkSign) (data : Buf) : Buf :=
  (InjectBeforeCD z data).getD ⟨0, fun _ => 0⟩

/-- Error classification of `VerifyV2`: the caller-contract violation is a
condition distinct from the collaborator failures. -/
inductive VerifyErr where
  | notV2Signed
  | parseError
  | verifyFailed
deriving DecidableEq

/-- Modelled from the spec: `ParseV2Block` and `V2Block.Verify` (files not
part of this source tree; §6 collaborator contracts: "a signature-block
parser/verifier consuming extracted payload bytes plus the Descriptor,
returning verification success/failure") are parameters.  `VerifyV2`
(apk.go lines 169-183) first rejects a non-v2-signed descriptor with the
distinct `notV2Signed` condition, otherwise parses the stored payload and
verifies; collaborator failures surface as their own conditions.  The
function is pure: the descriptor is read, never written. -/
def VerifyV2 {V2 : Type} (parseV2Block : Buf → Except Unit V2)
    (verifyBlock : V2 → ApkSign → Except Unit Unit) (z : ApkSign) :
    Except VerifyErr Unit :=
  if z.isV2Signed = false then .error .notV2Signed
  else
    match parseV2Block z.rawASv2 with
    | .error _ => .error .parseError
    | .ok v2 =>
      match verifyBlock v2 z with
      | .error _ => .error .verifyFailed
      | .ok _ => .ok ()

/-- Boolean check that a buffer is a well-formed size-matched signing block:
at least 32 bytes (8-byte size + 0-or-more payload + 8-byte size + 16-byte
magic, the two sizes at least 24), both size fields equal to `size - 8`, and
the magic literal in the last 16 bytes. -/
def IsValidBlockB (P : Buf) : Bool :=
  decide (32 ≤ P.size) && (readU64 P 0 == P.size - 8) &&
    (readU64 P (P.size - 24) == P.size - 8) && sigMagicCheck P (P.size - 16)

/-- A 23-byte all-zero buffer: big enough to pass the 22-byte gate, with no
EOCD anywhere, so the scan walks off the front of the buffer. -/
def buf23 : Buf := Buf.ofList (List.replicate 23 0)

/-- A 64-byte unsigned container whose 22-byte trailing comment is a spoofed
EOCD window: EOCD magic at the comment start (offset 42), its own comment
length 0 (echoing scan distance 0), declared CD offset 30 (whose bytes are
not CD magic here) and declared CD length 0.  The true EOCD is at offset 20
with comment length 22; the true CD (magic at 16, length 4) is adjacent. -/
def cexO : Buf := Buf.ofList
  [0, 0, 0, 0, 0, 0, 0, 0, 0, 0, 0, 0, 0, 0, 0, 0,
   80, 75, 1, 2,
   80, 75, 5, 6, 0, 0, 0, 0, 0, 0, 0, 0, 4, 0, 0, 0, 16, 0, 0, 0, 22, 0,
   80, 75, 5, 6, 0, 0, 0, 0, 0, 0, 0, 0, 0, 0, 0, 0, 30, 0, 0, 0, 0, 0]

/-- A valid 48-byte size-matched signing block (size fields 40) whose inner
payload carries CD-magic bytes at block offsets 14..17 — after injection at
insertion point 16 these land at absolute offset 30, exactly where `cexO`'s
spoofed window points. -/
def cexP : Buf := Buf.ofList
  [40, 0, 0, 0, 0, 0, 0, 0,
   0, 0, 0, 0, 0, 0, 80, 75, 1, 2, 0, 0, 0, 0, 0, 0,
   40, 0, 0, 0, 0, 0, 0, 0,
   65, 80, 75, 32, 83, 105, 103, 32, 66, 108, 111, 99, 107, 32, 52, 50]

/-- A 44-byte buffer whose EOCD (offset 22, comment length 0) is fully
corroborated — CD magic sits at the declared CD offset 0 — but whose
declared CD length 5 makes `cdOffset + cdLength = 5 ≠ 22 = eocdOffset`. -/
def b4 : Buf := Buf.ofList
  [80, 75, 1, 2, 0, 0, 0, 0, 0, 0, 0, 0, 0, 0, 0, 0, 0, 0, 0, 0, 0, 0,
   80, 75, 5, 6, 0, 0, 0, 0, 0, 0, 0, 0, 5, 0, 0, 0, 0, 0, 0, 0, 0, 0]

/-- A 58-byte container whose signing block occupies the whole region before
the CD: both size fields are 24 (stored at offsets 0 and 8), the magic sits
at 16..31, the CD (magic, length 4) at 32, the EOCD at 36.  The derived
block start is `cdOffset - postSize - 8 = 32 - 24 - 8 = 0`. -/
def b7 : Buf := Buf.ofList
  [24, 0, 0, 0, 0, 0, 0, 0,
   24, 0, 0, 0, 0, 0, 0, 0,
   65, 80, 75, 32, 83, 105, 103, 32, 66, 108, 111, 99, 107, 32, 52, 50,
   80, 75, 1, 2,
   80, 75, 5, 6, 0, 0, 0, 0, 0, 0, 0, 0, 4, 0, 0, 0, 32, 0, 0, 0, 0, 0]

/-- An 82-byte v2-signed container: 8 bytes of file data, a 48-byte signing
block at offset 8 (size fields 40, 16-byte inner payload `1..16`, magic at
40..55), CD (magic, length 4) at 56, EOCD at 60 with comment length 0. -/
def b8 : Buf := Buf.ofList
  [0, 0, 0, 0, 0, 0, 0, 0,
   40, 0, 0, 0, 0, 0, 0, 0,
   1, 2, 3, 4, 5, 6, 7, 8, 9, 10, 11, 12, 13, 14, 15, 16,
   40, 0, 0, 0, 0, 0, 0, 0,
   65, 80, 75, 32, 83, 105, 103, 32, 66, 108, 111, 99, 107, 32, 52, 50,
   80, 75, 1, 2,
   80, 75, 5, 6, 0, 0, 0, 0, 0, 0, 0, 0, 4, 0, 0, 0, 56, 0, 0, 0, 0, 0]

/-- A valid 40-byte size-matched signing block (size fields 32, 8-byte inner
payload `1..8`, magic in the last 16 bytes). -/
def p40 : Buf := Buf.ofList
  [32, 0, 0, 0, 0, 0, 0, 0,
   1, 2, 3, 4, 5, 6, 7, 8,
   32, 0, 0, 0, 0, 0, 0, 0,
   65, 80, 75, 32, 83, 105, 103, 32, 66, 108, 111, 99, 107, 32, 52, 50]

/-- A 65585-byte container whose corroborated EOCD has the maximal comment
length 65535: CD (magic, length 4) at offset 24, EOCD record at 28 with
comment-length field `0xFFFF`, and 65535 comment bytes of zero.  No byte at
offset 29 or beyond is `0x50`, so no window scanned at comment lengths
`0 .. 65534` carries the EOCD magic. -/
def bigBufData (s : Nat) : Nat :=
  if s = 24 then 80 else if s = 25 then 75
  else if s = 26 then 1 else if s = 27 then 2
  else if s = 28 then 80 else if s = 29 then 75
  else if s = 30 then 5 else if s = 31 then 6
  else if s = 40 then 4
  else if s = 44 then 24
  else if s = 48 then 255 else if s = 49 then 255
  else 0

/-- The buffer itself: see `bigBufData` for the byte layout. -/
def bigBuf : Buf := ⟨65585, bigBufData⟩

/-- The descriptor the locator produces for `b7`. -/
def z7model : ApkSign := (NewApkSign someReader b7).getOk.getD defaultApk

/-- The descriptor the locator produces for `b8`. -/
def z8model : ApkSign := (NewApkSign someReader b8).getOk.getD defaultApk

/-- The empty byte buffer. -/
def emptyBuf : Buf := ⟨0, fun _ => 0⟩

/-- A descriptor with well-ordered offsets whose CD offset 4294967338
exceeds the 32-bit field (an unsigned 2^32 + 64 byte archive whose EOCD
sits at the end with an empty comment). -/
def z9 : ApkSign :=
  ⟨false, false, ⟨4294967360, fun _ => 0⟩, 4294967360, 4294967338,
    4294967338, 0, emptyBuf⟩

/-- What the signing-block phase of `NewApkSign` (lines 122-148) guarantees
about a returned descriptor: either the magic is absent and the descriptor
is unsigned, or the magic is present, the reads were in range — `preSize`
is read at the wrapping-uint64 offset `wrapSub cdOffset postSize`, with
`postSize` the 8-byte field at `cdOffset - 24` — and the descriptor
reflects the outcome of the duplicated-size-field comparison (a mismatch,
including one reached through a wrapped-back-into-bounds offset, leaves the
descriptor unsigned with no error). -/
def SignedFacts (b : Buf) (z : ApkSign) : Prop :=
  (sigMagicCheck b (z.cdOffset - 16) = false ∧ z.asv2Offset = 0 ∧
    z.isV2Signed = false ∧ z.rawASv2.size = 0) ∨
  (sigMagicCheck b (z.cdOffset - 16) = true ∧ 24 ≤ z.cdOffset ∧
    wrapSub z.cdOffset (readU64 b (z.cdOffset - 24)) <
      9223372036854775808 ∧
    wrapSub z.cdOffset (readU64 b (z.cdOffset - 24)) + 8 ≤ b.size ∧
    ((readU64 b (wrapSub z.cdOffset (readU64 b (z.cdOffset - 24))) =
        readU64 b (z.cdOffset - 24) ∧
      24 ≤ readU64 b (z.cdOffset - 24) ∧
      readU64 b (z.cdOffset - 24) - 24 < 9223372036854775808 ∧
      z.asv2Offset = wrapSub z.cdOffset (readU64 b (z.cdOffset - 24)) ∧
      z.isV2Signed = decide (0 < z.asv2Offset) ∧
      z.rawASv2.size = readU64 b (z.cdOffset - 24) - 24 ∧
      (∀ k, k < readU64 b (z.cdOffset - 24) - 24 →
        z.rawASv2.data k = b.data (z.asv2Offset + 8 + k))) ∨
     (readU64 b (wrapSub z.cdOffset (readU64 b (z.cdOffset - 24))) ≠
        readU64 b (z.cdOffset - 24) ∧
      z.asv2Offset = 0 ∧ z.isV2Signed = false ∧ z.rawASv2.size = 0)))

/-- Everything a successful `NewApkSign` run establishes about the returned
descriptor, independent of which scan position found the EOCD. -/
structure LocFacts (b : Buf) (z : ApkSign) : Prop where
  raw_eq : z.raw = b
  size_eq : z.size = b.size
  eocd_le : z.eocdOffset + 22 ≤ b.size
  comment_lt : b.size - 22 - z.eocdOffset < 65535
  eocd_magic : readU32 b z.eocdOffset = 0x06054b50
  comment_echo : readU16 b (z.eocdOffset + 20) = b.size - 22 - z.eocdOffset
  cd_eq : z.cdOffset = readU32 b (z.eocdOffset + 16)
  cd_lt : z.cdOffset + 4 ≤ b.size
  cd_magic : readU32 b z.cdOffset = 0x02014b50
  adjacent : z.cdOffset + readU32 b (z.eocdOffset + 12) = z.eocdOffset
  cd_ge16 : 16 ≤ z.cdOffset
  asv2_le : b.size < 9223372036854775808 → z.asv2Offset ≤ z.cdOffset
  signed : SignedFacts b z

theorem scanLoop_zero (reader : EntryReader) (b : Buf) (i : Nat) :
    scanLoop reader b 0 i = .err .notAZip := rfl

theorem scanLoop_succ (reader : EntryReader) (b : Buf) (fuel i : Nat) :
    scanLoop reader b (fuel + 1) i =
      scanStep reader b i (scanLoop reader b fuel (i + 1)) := rfl

/-- C1: the claim that the locator always terminates with a descriptor or a
classified failure is wrong on the code: on the 23-byte all-zero buffer the
scan reaches comment length `i = 2`, computes the window start
`size - 22 - i = -1`, and `z.raw[start:start+22]` panics (slice bounds out
of range) instead of returning `NotAZipContainer`, contradicting the
function's own contract that a non-nil error is returned for non-zip
input. -/
theorem c1_scan_crash :
    buf23.size = 23 ∧ (NewApkSign someReader buf23).isCrash = true := by
  decide

/-- C2: a candidate window (EOCD magic present) that fails corroboration —
its declared comment length differs from the scan distance `i`, or the four
in-range bytes at its declared CD offset are not CD magic — makes iteration
`i` defer to iteration `i + 1`: the scan neither stops nor fails there. -/
theorem c2_corroboration_continue (reader : EntryReader) (b : Buf)
    (fuel i : Nat) (hin : 22 + i ≤ b.size)
    (hm : readU32 b (b.size - 22 - i) = 0x06054b50)
    (hfail : readU16 b (b.size - 22 - i + 20) ≠ i % 65536 ∨
      (readU32 b (b.size - 22 - i + 16) + 4 ≤ b.size ∧
        readU32 b (readU32 b (b.size - 22 - i + 16)) ≠ 0x02014b50)) :
    scanLoop reader b (fuel + 1) i = scanLoop reader b fuel (i + 1) := by
  rw [scanLoop_succ]
  simp only [scanStep]
  rw [if_neg (by omega), if_neg (not_not_intro hm)]
  rcases hfail with hecho | ⟨hrange, hcdm⟩
  · rw [if_pos hecho]
  · by_cases hecho : readU16 b (b.size - 22 - i + 20) ≠ i % 65536
    · rw [if_pos hecho]
    · rw [if_neg hecho, if_neg (by omega), if_pos hcdm]

theorem c2_witness :
    22 + 0 ≤ cexO.size ∧ readU32 cexO (cexO.size - 22 - 0) = 0x06054b50 ∧
      scanLoop someReader cexO 65535 0 = scanLoop someReader cexO 65534 1 :=
  ⟨by decide, by decide,
    c2_corroboration_continue someReader cexO 65534 0 (by decide) (by decide)
      (Or.inr ⟨by decide, by decide⟩)⟩

/-- C4: a candidate window that passes both corroboration checks but whose
declared `cdOffset + cdLength` differs from the candidate EOCD offset makes
the locator fail immediately with `CDNotAdjacentToEOCD`, regardless of how
many scan positions remain. -/
theorem c4_nonadjacent_fatal (reader : EntryReader) (b : Buf) (fuel i : Nat)
    (hin : 22 + i ≤ b.size)
    (hm : readU32 b (b.size - 22 - i) = 0x06054b50)
    (hecho : readU16 b (b.size - 22 - i + 20) = i % 65536)
    (hrange : readU32 b (b.size - 22 - i + 16) + 4 ≤ b.size)
    (hcdm : readU32 b (readU32 b (b.size - 22 - i + 16)) = 0x02014b50)
    (hadj : readU32 b (b.size - 22 - i + 16) +
        readU32 b (b.size - 22 - i + 12) ≠ b.size - 22 - i) :
    scanLoop reader b (fuel + 1) i = .err .cdNotAdjacent := by
  rw [scanLoop_succ]
  simp only [scanStep]
  rw [if_neg (by omega), if_neg (not_not_intro hm),
    if_neg (not_not_intro hecho), if_neg (by omega),
    if_neg (not_not_intro hcdm), if_pos hadj]

theorem c4_witness :
    22 + 0 ≤ b4.size ∧
      scanLoop someReader b4 65535 0 = .err .cdNotAdjacent :=
  ⟨by decide,
    c4_nonadjacent_fatal someReader b4 65534 0 (by decide) (by decide)
      (by decide) (by decide) (by decide) (by decide)⟩

/-- C10: invoking `VerifyV2` on a descriptor whose `IsV2Signed` flag is
false yields the distinct `notV2Signed` condition (never silent empty
data), and on a flagged descriptor the `notV2Signed` condition can never be
returned — collaborator failures surface as their own conditions.  The
model is pure, so the descriptor is untouched by construction, mirroring
the Go method which never writes through its receiver. -/
theorem c10_notv2signed {V2 : Type} (parseV2Block : Buf → Except Unit V2)
    (verifyBlock : V2 → ApkSign → Except Unit Unit) (z : ApkSign) :
    (z.isV2Signed = false →
      VerifyV2 parseV2Block verifyBlock z = .error .notV2Signed) ∧
    (z.isV2Signed = true →
      VerifyV2 parseV2Block verifyBlock z ≠ .error .notV2Signed) := by
  constructor
  · intro h
    simp [VerifyV2, h]
  · intro h
    unfold VerifyV2
    rw [if_neg (by simp [h])]
    rcases hp : parseV2Block z.rawASv2 with e | v2
    · simp
    · rcases hv : verifyBlock v2 z with e | u <;> simp [hv]

theorem c10_witness :
    VerifyV2 (fun _ => Except.ok ()) (fun _ _ => Except.ok ()) defaultApk =
        .error .notV2Signed ∧
      VerifyV2 (fun _ => Except.ok ()) (fun _ _ => Except.ok ()) z8model ≠
        .error .notV2Signed :=
  ⟨(c10_notv2signed (fun _ => Except.ok ()) (fun _ _ => Except.ok ())
      defaultApk).1 rfl,
    (c10_notv2signed (fun _ => Except.ok ()) (fun _ _ => Except.ok ())
      z8model).2 (by decide)⟩

theorem eofOf_le_cd (z : ApkSign) (h : z.asv2Offset ≤ z.cdOffset) :
    eofOf z ≤ z.cdOffset := by
  unfold eofOf; split <;> omega

theorem injectResult_eq (z : ApkSign) (data : Buf) (hv : ValidOffsets z) :
    injectResult z data = injectedBuf z data := by
  unfold injectResult InjectBeforeCD
  rw [if_pos hv]
  rfl

theorem injectedBuf_size (z : ApkSign) (data : Buf) :
    (injectedBuf z data).size =
      z.raw.size - (z.cdOffset - eofOf z) + data.size := rfl

theorem injectedBuf_data_low (z : ApkSign) (data : Buf) (k : Nat)
    (hk : k < eofOf z) :
    (injectedBuf z data).data k = z.raw.data k := by
  simp only [injectedBuf]
  rw [if_pos hk]

theorem injectedBuf_data_payload (z : ApkSign) (data : Buf) (k : Nat)
    (hk : k < data.size) :
    (injectedBuf z data).data (eofOf z + k) = data.data k := by
  simp only [injectedBuf]
  rw [if_neg (by omega), if_pos (by omega)]
  congr 1
  omega

theorem injectedBuf_data_cd (z : ApkSign) (data : Buf) (k : Nat)
    (hk : k < z.eocdOffset - z.cdOffset) :
    (injectedBuf z data).data (eofOf z + data.size + k) =
      z.raw.data (z.cdOffset + k) := by
  simp only [injectedBuf]
  rw [if_neg (by omega), if_neg (by omega), if_pos (by omega)]
  congr 1
  omega

theorem injectedBuf_data_eocd (z : ApkSign) (data : Buf) (k : Nat)
    (hv : ValidOffsets z) (hk : k < z.raw.size - z.eocdOffset)
    (hside : k < 16 ∨ 20 ≤ k) :
    (injectedBuf z data).data
        (eofOf z + data.size + (z.eocdOffset - z.cdOffset) + k) =
      z.raw.data (z.eocdOffset + k) := by
  obtain ⟨h1, h2, h3, h4⟩ := hv
  have heof := eofOf_le_cd z h1
  simp only [injectedBuf]
  rw [if_neg (by omega), if_neg (by omega), if_neg (by omega),
    if_pos (by omega), if_neg (by omega)]
  congr 1
  omega

theorem injectedBuf_data_patch (z : ApkSign) (data : Buf) (idx j : Nat)
    (hv : ValidOffsets z) (hj : j < 4)
    (hidx : idx = eofOf z + data.size + (z.eocdOffset - z.cdOffset) + 16 + j) :
    (injectedBuf z data).data idx = (eofOf z + data.size) / 256 ^ j % 256 := by
  obtain ⟨h1, h2, h3, h4⟩ := hv
  have heof := eofOf_le_cd z h1
  subst hidx
  simp only [injectedBuf]
  rw [if_neg (by omega), if_neg (by omega), if_neg (by omega),
    if_pos (by omega), if_pos (by omega)]
  have hrel : eofOf z + data.size + (z.eocdOffset - z.cdOffset) + 16 + j -
      (eofOf z + data.size + (z.eocdOffset - z.cdOffset)) - 16 = j := by
    omega
  rw [hrel]

theorem le_bytes_u32 (v : Nat) :
    v % 256 + 256 * (v / 256 % 256) + 65536 * (v / 65536 % 256) +
      16777216 * (v / 16777216 % 256) = v % 4294967296 := by
  omega

/-- C6: for every descriptor with valid offsets and every payload, the
injected buffer is exactly `original[0:insertionPoint] ++ payload ++
original[cdOffset:eocdOffset] ++ EOCD-block`, where the EOCD block keeps
every byte (comment and comment length included) except its CD-offset field
at relative bytes 16..19, which holds the little-endian bytes of
`insertionPoint + payloadLength`; the total size is the original size minus
the discarded old block (`cdOffset - asv2Offset` when signed) plus the
payload length, exactly. -/
theorem c6_inject_layout (z : ApkSign) (data : Buf) (k : Nat)
    (hv : ValidOffsets z) :
    InjectBeforeCD z data = some (injectedBuf z data) ∧
    (injectedBuf z data).size =
      z.raw.size - (z.cdOffset - eofOf z) + data.size ∧
    (k < eofOf z → (injectedBuf z data).data k = z.raw.data k) ∧
    (k < data.size →
      (injectedBuf z data).data (eofOf z + k) = data.data k) ∧
    (k < z.eocdOffset - z.cdOffset →
      (injectedBuf z data).data (eofOf z + data.size + k) =
        z.raw.data (z.cdOffset + k)) ∧
    (k < z.raw.size - z.eocdOffset → k < 16 ∨ 20 ≤ k →
      (injectedBuf z data).data
          (eofOf z + data.size + (z.eocdOffset - z.cdOffset) + k) =
        z.raw.data (z.eocdOffset + k)) ∧
    (k < 4 →
      (injectedBuf z data).data
          (eofOf z + data.size + (z.eocdOffset - z.cdOffset) + 16 + k) =
        (eofOf z + data.size) / 256 ^ k % 256) := by
  refine ⟨by unfold InjectBeforeCD; rw [if_pos hv], rfl,
    fun h => injectedBuf_data_low z data k h,
    fun h => injectedBuf_data_payload z data k h,
    fun h => injectedBuf_data_cd z data k h,
    fun h hside => injectedBuf_data_eocd z data k hv h hside,
    fun h => injectedBuf_data_patch z data _ k hv h rfl⟩

theorem c6_witness :
    ValidOffsets z8model ∧
    (InjectBeforeCD z8model p40 = some (injectedBuf z8model p40) ∧
    (injectedBuf z8model p40).size =
      z8model.raw.size - (z8model.cdOffset - eofOf z8model) + p40.size ∧
    (0 < eofOf z8model →
      (injectedBuf z8model p40).data 0 = z8model.raw.data 0) ∧
    (0 < p40.size →
      (injectedBuf z8model p40).data (eofOf z8model + 0) = p40.data 0) ∧
    (0 < z8model.eocdOffset - z8model.cdOffset →
      (injectedBuf z8model p40).data (eofOf z8model + p40.size + 0) =
        z8model.raw.data (z8model.cdOffset + 0)) ∧
    (0 < z8model.raw.size - z8model.eocdOffset → 0 < 16 ∨ 20 ≤ 0 →
      (injectedBuf z8model p40).data
          (eofOf z8model + p40.size +
            (z8model.eocdOffset - z8model.cdOffset) + 0) =
        z8model.raw.data (z8model.eocdOffset + 0)) ∧
    (0 < 4 →
      (injectedBuf z8model p40).data
          (eofOf z8model + p40.size +
            (z8model.eocdOffset - z8model.cdOffset) + 16 + 0) =
        (eofOf z8model + p40.size) / 256 ^ 0 % 256)) :=
  ⟨by decide, c6_inject_layout z8model p40 0 (by decide)⟩

/-- C9: the injector writes `(insertionPoint + payloadLength) mod 2^32`
into the CD-offset field of the result's EOCD — the only hypothesis is the
descriptor layout (`ValidOffsets`), with no bound on
`insertionPoint + payloadLength`, so when that sum reaches `2^32` the
operation still returns a buffer (no error) whose EOCD field is silently
truncated. -/
theorem c9_cd_offset_truncation (z : ApkSign) (data : Buf)
    (hv : ValidOffsets z) :
    (InjectBeforeCD z data).isSome = true ∧
    readU32 (injectResult z data)
        (eofOf z + data.size + (z.eocdOffset - z.cdOffset) + 16) =
      (eofOf z + data.size) % 4294967296 := by
  constructor
  · unfold InjectBeforeCD
    rw [if_pos hv]
    rfl
  · rw [injectResult_eq z data hv]
    have e0 := injectedBuf_data_patch z data
      (eofOf z + data.size + (z.eocdOffset - z.cdOffset) + 16) 0 hv
      (by omega) (by omega)
    have e1 := injectedBuf_data_patch z data
      (eofOf z + data.size + (z.eocdOffset - z.cdOffset) + 16 + 1) 1 hv
      (by omega) (by omega)
    have e2 := injectedBuf_data_patch z data
      (eofOf z + data.size + (z.eocdOffset - z.cdOffset) + 16 + 2) 2 hv
      (by omega) (by omega)
    have e3 := injectedBuf_data_patch z data
      (eofOf z + data.size + (z.eocdOffset - z.cdOffset) + 16 + 3) 3 hv
      (by omega) (by omega)
    rw [readU32, e0, e1, e2, e3]
    norm_num
    omega

theorem c9_witness :
    ValidOffsets z9 ∧ 4294967296 ≤ eofOf z9 + emptyBuf.size ∧
    ((InjectBeforeCD z9 emptyBuf).isSome = true ∧
      readU32 (injectResult z9 emptyBuf)
          (eofOf z9 + emptyBuf.size + (z9.eocdOffset - z9.cdOffset) + 16) =
        (eofOf z9 + emptyBuf.size) % 4294967296) :=
  ⟨by decide, by decide, c9_cd_offset_truncation z9 emptyBuf (by decide)⟩

theorem wrapSub_def (cd post : Nat) :
    wrapSub cd post =
      (cd + 36893488147419103232 - post - 8) % 18446744073709551616 := rfl

theorem scanLoop_ok_facts (reader : EntryReader) (b : Buf) :
    ∀ fuel i z, fuel + i ≤ 65535 → scanLoop reader b fuel i = .ok z →
      LocFacts b z := by
  intro fuel
  induction fuel with
  | zero =>
    intro i z _ h
    rw [scanLoop_zero] at h
    exact Outcome.noConfusion h
  | succ n ih =>
    intro i z hle h
    rw [scanLoop_succ] at h
    simp only [scanStep] at h
    by_cases hc1 : b.size < 22 + i
    · rw [if_pos hc1] at h; exact Outcome.noConfusion h
    rw [if_neg hc1] at h
    by_cases hc2 : readU32 b (b.size - 22 - i) ≠ 0x06054b50
    · rw [if_pos hc2] at h; exact ih (i + 1) z (by omega) h
    rw [if_neg hc2] at h
    rw [ne_eq, not_not] at hc2
    by_cases hc3 : readU16 b (b.size - 22 - i + 20) ≠ i % 65536
    · rw [if_pos hc3] at h; exact ih (i + 1) z (by omega) h
    rw [if_neg hc3] at h
    rw [ne_eq, not_not] at hc3
    by_cases hc4 : b.size < readU32 b (b.size - 22 - i + 16) + 4
    · rw [if_pos hc4] at h; exact Outcome.noConfusion h
    rw [if_neg hc4] at h
    by_cases hc5 : readU32 b (readU32 b (b.size - 22 - i + 16)) ≠ 0x02014b50
    · rw [if_pos hc5] at h; exact ih (i + 1) z (by omega) h
    rw [if_neg hc5] at h
    rw [ne_eq, not_not] at hc5
    by_cases hc6 : readU32 b (b.size - 22 - i + 16) +
        readU32 b (b.size - 22 - i + 12) ≠ b.size - 22 - i
    · rw [if_pos hc6] at h; exact Outcome.noConfusion h
    rw [if_neg hc6] at h
    rw [ne_eq, not_not] at hc6
    rcases hr : reader b with _ | names
    · simp only [hr] at h
      exact Outcome.noConfusion h
    simp only [hr] at h
    by_cases hc7 : readU32 b (b.size - 22 - i + 16) < 16
    · rw [if_pos hc7] at h; exact Outcome.noConfusion h
    rw [if_neg hc7] at h
    by_cases hsig : sigMagicCheck b (readU32 b (b.size - 22 - i + 16) - 16) =
        true
    · rw [if_pos hsig] at h
      by_cases hc8 : readU32 b (b.size - 22 - i + 16) < 24
      · rw [if_pos hc8] at h; exact Outcome.noConfusion h
      rw [if_neg hc8] at h
      by_cases hc9 : 9223372036854775808 ≤
          wrapSub (readU32 b (b.size - 22 - i + 16))
            (readU64 b (readU32 b (b.size - 22 - i + 16) - 24)) ∨
          b.size < wrapSub (readU32 b (b.size - 22 - i + 16))
            (readU64 b (readU32 b (b.size - 22 - i + 16) - 24)) + 8
      · rw [if_pos hc9] at h; exact Outcome.noConfusion h
      rw [if_neg hc9] at h
      by_cases hpre : readU64 b
          (wrapSub (readU32 b (b.size - 22 - i + 16))
            (readU64 b (readU32 b (b.size - 22 - i + 16) - 24))) =
          readU64 b (readU32 b (b.size - 22 - i + 16) - 24)
      · rw [if_pos hpre] at h
        by_cases hc10 : readU64 b
            (wrapSub (readU32 b (b.size - 22 - i + 16))
              (readU64 b (readU32 b (b.size - 22 - i + 16) - 24))) < 24 ∨
            9223372036854775808 ≤ readU64 b
              (wrapSub (readU32 b (b.size - 22 - i + 16))
                (readU64 b (readU32 b (b.size - 22 - i + 16) - 24))) - 24
        · rw [if_pos hc10] at h; exact Outcome.noConfusion h
        rw [if_neg hc10] at h
        injection h with h
        subst h
        refine ⟨rfl, rfl, by dsimp only; omega, by dsimp only; omega,
          by dsimp only; exact hc2, by dsimp only; omega, rfl,
          by dsimp only; omega, by dsimp only; exact hc5,
          by dsimp only; exact hc6, by dsimp only; omega, ?_, ?_⟩
        · dsimp only
          intro hszb
          have hw := wrapSub_def (readU32 b (b.size - 22 - i + 16))
            (readU64 b (readU32 b (b.size - 22 - i + 16) - 24))
          omega
        · unfold SignedFacts
          dsimp only
          refine Or.inr ⟨hsig, by omega, by omega, by omega,
            Or.inl ⟨hpre, by omega, by omega, rfl, rfl, by omega, ?_⟩⟩
          intro k hk
          rw [if_pos (by omega)]
      · rw [if_neg hpre] at h
        injection h with h
        subst h
        refine ⟨rfl, rfl, by dsimp only; omega, by dsimp only; omega,
          by dsimp only; exact hc2, by dsimp only; omega, rfl,
          by dsimp only; omega, by dsimp only; exact hc5,
          by dsimp only; exact hc6, by dsimp only; omega,
          by dsimp only; intro hszb; omega, ?_⟩
        unfold SignedFacts
        dsimp only
        exact Or.inr ⟨hsig, by omega, by omega, by omega,
          Or.inr ⟨hpre, rfl, rfl, rfl⟩⟩
    · rw [if_neg hsig] at h
      injection h with h
      subst h
      refine ⟨rfl, rfl, by dsimp only; omega, by dsimp only; omega,
        by dsimp only; exact hc2, by dsimp only; omega, rfl,
        by dsimp only; omega, by dsimp only; exact hc5,
        by dsimp only; exact hc6, by dsimp only; omega,
        by dsimp only; intro hszb; omega, ?_⟩
      unfold SignedFacts
      dsimp only
      exact Or.inl ⟨by simpa using hsig, rfl, rfl, rfl⟩

theorem newApkSign_ok_facts (reader : EntryReader) (b : Buf) (z : ApkSign)
    (h : NewApkSign reader b = .ok z) : LocFacts b z := by
  unfold NewApkSign at h
  split at h
  · exact Outcome.noConfusion h
  · exact scanLoop_ok_facts reader b 65535 0 z (by omega) h

/-- C8: every descriptor the locator returns with `IsV2Signed = true` has a
positive `asv2Offset` and a stored payload whose length is the declared
block size (the 8-byte field just below the magic) minus 24. -/
theorem c8_v2_invariant (reader : EntryReader) (b : Buf) (z : ApkSign)
    (hok : NewApkSign reader b = .ok z) (hv2 : z.isV2Signed = true) :
    0 < z.asv2Offset ∧
      z.rawASv2.size = readU64 b (z.cdOffset - 24) - 24 := by
  have hf := newApkSign_ok_facts reader b z hok
  rcases hf.signed with ⟨_, _, hfl, _⟩ | ⟨_, _, _, _, heq | hne⟩
  · rw [hfl] at hv2; exact Bool.noConfusion hv2
  · obtain ⟨_, _, _, _, hisv2, hsize, _⟩ := heq
    rw [hisv2] at hv2
    exact ⟨of_decide_eq_true hv2, hsize⟩
  · obtain ⟨_, _, hfl, _⟩ := hne
    rw [hfl] at hv2; exact Bool.noConfusion hv2

theorem c8_witness :
    z8model.isV2Signed = true ∧
      (0 < z8model.asv2Offset ∧
        z8model.rawASv2.size = readU64 b8 (z8model.cdOffset - 24) - 24) :=
  ⟨by decide, c8_v2_invariant someReader b8 z8model rfl (by decide)⟩

/-- C7 is refuted on `b7`: the locator succeeds with `cdOffset = 32`, the
signing-block magic sits at `[16, 32)`, and the duplicated size fields (at
offsets 8 and 0, value 24) are equal — yet `hasV2Signature` is `false`,
because the derived block start `cdOffset - postSize - 8` is 0 and the code
sets `IsV2Signed = asv2Offset > 0`.  So "hasV2Signature is true exactly
when the size fields are equal" fails in the right-to-left direction. -/
theorem c7_softfail_cex :
    (NewApkSign someReader b7).cdOf = some 32 ∧
    sigMagicCheck b7 (32 - 16) = true ∧
    readU64 b7 (32 - 24) = 24 ∧
    readU64 b7 (32 - 24 - 8) = 24 ∧
    (NewApkSign someReader b7).isV2Of = some false := by
  decide

/-- C7 (amended): on a buffer where locate succeeds and the signing-block
magic precedes the CD, `hasV2Signature` is true exactly when the duplicated
size fields agree AND the derived block start — the wrapping-uint64
subtraction `cdOffset - postSize - 8`, i.e. `wrapSub cdOffset postSize` —
is positive; whenever the fields agree the extracted payload has length
`postSize - 24`; a field mismatch (including one read through a
wrapped-back-into-bounds offset) leaves the flag false with no error. -/
theorem c7_softfail_amended (reader : EntryReader) (b : Buf) (z : ApkSign)
    (hok : NewApkSign reader b = .ok z)
    (hmagic : sigMagicCheck b (z.cdOffset - 16) = true) :
    (z.isV2Signed = true ↔
      (readU64 b (wrapSub z.cdOffset (readU64 b (z.cdOffset - 24))) =
          readU64 b (z.cdOffset - 24) ∧
        0 < wrapSub z.cdOffset (readU64 b (z.cdOffset - 24)))) ∧
    (readU64 b (wrapSub z.cdOffset (readU64 b (z.cdOffset - 24))) =
        readU64 b (z.cdOffset - 24) →
      z.rawASv2.size = readU64 b (z.cdOffset - 24) - 24) := by
  have hf := newApkSign_ok_facts reader b z hok
  rcases hf.signed with ⟨hfl, _⟩ | ⟨_, _, _, _, heq | hne⟩
  · rw [hmagic] at hfl; exact Bool.noConfusion hfl
  · obtain ⟨hpre, hp24, hp63, hasv2, hisv2, hsize, _⟩ := heq
    refine ⟨?_, fun _ => hsize⟩
    rw [hisv2, hasv2, decide_eq_true_eq]
    exact ⟨fun h => ⟨hpre, h⟩, fun h => h.2⟩
  · obtain ⟨hne2, hasv2, hisv2, hsize⟩ := hne
    refine ⟨?_, fun hcontra => absurd hcontra hne2⟩
    rw [hisv2]
    constructor
    · intro hx; exact Bool.noConfusion hx
    · intro hx; exact absurd hx.1 hne2

theorem c7_witness :
    sigMagicCheck b7 (z7model.cdOffset - 16) = true ∧
    ((z7model.isV2Signed = true ↔
      (readU64 b7 (wrapSub z7model.cdOffset
            (readU64 b7 (z7model.cdOffset - 24))) =
          readU64 b7 (z7model.cdOffset - 24) ∧
        0 < wrapSub z7model.cdOffset
            (readU64 b7 (z7model.cdOffset - 24)))) ∧
    (readU64 b7 (wrapSub z7model.cdOffset
          (readU64 b7 (z7model.cdOffset - 24))) =
        readU64 b7 (z7model.cdOffset - 24) →
      z7model.rawASv2.size = readU64 b7 (z7model.cdOffset - 24) - 24)) :=
  ⟨by decide, c7_softfail_amended someReader b7 z7model rfl (by decide)⟩

theorem bigBuf_data_eq (s : Nat) : bigBuf.data s = bigBufData s := rfl

theorem bigBufData_facts (s : Nat) :
    bigBufData s < 256 ∧ (29 ≤ s → bigBufData s ≠ 80) := by
  unfold bigBufData
  by_cases h1 : s = 24
  · rw [if_pos h1]; exact ⟨by omega, by omega⟩
  rw [if_neg h1]
  by_cases h2 : s = 25
  · rw [if_pos h2]; exact ⟨by omega, by omega⟩
  rw [if_neg h2]
  by_cases h3 : s = 26
  · rw [if_pos h3]; exact ⟨by omega, by omega⟩
  rw [if_neg h3]
  by_cases h4 : s = 27
  · rw [if_pos h4]; exact ⟨by omega, by omega⟩
  rw [if_neg h4]
  by_cases h5 : s = 28
  · rw [if_pos h5]; exact ⟨by omega, by omega⟩
  rw [if_neg h5]
  by_cases h6 : s = 29
  · rw [if_pos h6]; exact ⟨by omega, by omega⟩
  rw [if_neg h6]
  by_cases h7 : s = 30
  · rw [if_pos h7]; exact ⟨by omega, by omega⟩
  rw [if_neg h7]
  by_cases h8 : s = 31
  · rw [if_pos h8]; exact ⟨by omega, by omega⟩
  rw [if_neg h8]
  by_cases h9 : s = 40
  · rw [if_pos h9]; exact ⟨by omega, by omega⟩
  rw [if_neg h9]
  by_cases h10 : s = 44
  · rw [if_pos h10]; exact ⟨by omega, by omega⟩
  rw [if_neg h10]
  by_cases h11 : s = 48
  · rw [if_pos h11]; exact ⟨by omega, by omega⟩
  rw [if_neg h11]
  by_cases h12 : s = 49
  · rw [if_pos h12]; exact ⟨by omega, by omega⟩
  rw [if_neg h12]
  exact ⟨by omega, by omega⟩

theorem bigBuf_no_eocd_magic (s : Nat) (hs : 29 ≤ s) :
    readU32 bigBuf s ≠ 0x06054b50 := by
  intro h
  have h0 : bigBuf.data s = 80 := by
    have l0 := (bigBufData_facts s).1
    have l1 := (bigBufData_facts (s + 1)).1
    have l2 := (bigBufData_facts (s + 2)).1
    have l3 := (bigBufData_facts (s + 3)).1
    rw [bigBuf_data_eq] at *
    rw [readU32] at h
    simp only [bigBuf_data_eq] at h ⊢
    omega
  rw [bigBuf_data_eq] at h0
  exact (bigBufData_facts s).2 hs h0

theorem bigBuf_scan (reader : EntryReader) :
    ∀ fuel i, i + fuel = 65535 →
      scanLoop reader bigBuf fuel i = .err .notAZip := by
  intro fuel
  induction fuel with
  | zero => intro i _; exact scanLoop_zero reader bigBuf i
  | succ n ih =>
    intro i hi
    rw [scanLoop_succ]
    simp only [scanStep]
    rw [if_neg (by show ¬(65585 < 22 + i); omega),
      if_pos (bigBuf_no_eocd_magic (bigBuf.size - 22 - i)
        (by show 29 ≤ 65585 - 22 - i; omega))]
    exact ih (i + 1) (by omega)

/-- C3 is refuted on `bigBuf`: the buffer contains a fully corroborated
EOCD at offset 28 whose comment length is exactly 65535 (the maximal
16-bit value) — magic, comment-length echo, in-range CD magic at the
declared offset 24, and adjacency all hold — yet the locator returns
`NotAZipContainer`, because the Go loop `for i := uint32(0); i < 65535`
examines only the 65535 scan positions `0 .. 65534` and never reaches
`i = 65535`. -/
theorem c3_comment_65535_missed :
    (NewApkSign someReader bigBuf).errOf = some .notAZip ∧
    bigBuf.size = 65585 ∧
    readU32 bigBuf 28 = 0x06054b50 ∧
    readU16 bigBuf (28 + 20) = 65535 ∧
    28 = bigBuf.size - 22 - 65535 ∧
    readU32 bigBuf (28 + 16) = 24 ∧
    readU32 bigBuf 24 = 0x02014b50 ∧
    24 + readU32 bigBuf (28 + 12) = 28 := by
  refine ⟨?_, by decide, by decide, by decide, by decide, by decide,
    by decide, by decide⟩
  have hscan := bigBuf_scan someReader 65535 0 (by omega)
  unfold NewApkSign
  rw [if_neg (by show ¬(65585 < 22); omega), hscan]
  rfl

theorem readU16_map (b1 b2 : Buf) (x y : Nat)
    (h0 : b1.data x = b2.data y) (h1 : b1.data (x + 1) = b2.data (y + 1)) :
    readU16 b1 x = readU16 b2 y := by
  simp only [readU16]
  rw [h0, h1]

theorem readU32_map (b1 b2 : Buf) (x y : Nat)
    (h0 : b1.data x = b2.data y) (h1 : b1.data (x + 1) = b2.data (y + 1))
    (h2 : b1.data (x + 2) = b2.data (y + 2))
    (h3 : b1.data (x + 3) = b2.data (y + 3)) :
    readU32 b1 x = readU32 b2 y := by
  simp only [readU32]
  rw [h0, h1, h2, h3]

theorem readU64_map (b1 b2 : Buf) (x y : Nat)
    (h0 : b1.data x = b2.data y) (h1 : b1.data (x + 1) = b2.data (y + 1))
    (h2 : b1.data (x + 2) = b2.data (y + 2))
    (h3 : b1.data (x + 3) = b2.data (y + 3))
    (h4 : b1.data (x + 4) = b2.data (y + 4))
    (h5 : b1.data (x + 5) = b2.data (y + 5))
    (h6 : b1.data (x + 6) = b2.data (y + 6))
    (h7 : b1.data (x + 7) = b2.data (y + 7)) :
    readU64 b1 x = readU64 b2 y := by
  simp only [readU64]
  rw [h0, h1, h2, h3, h4, h5, h6, h7]

theorem sigMagicCheck_iff (b : Buf) (off : Nat) :
    sigMagicCheck b off = true ↔
      ∀ j, j < 16 → b.data (off + j) = sigMagicByte j := by
  unfold sigMagicCheck
  rw [List.all_eq_true]
  constructor
  · intro h j hj
    exact eq_of_beq (h j (List.mem_range.mpr hj))
  · intro h j hj
    exact beq_iff_eq.mpr (h j (List.mem_range.mp hj))

theorem ofList_data_lt (l : List Nat) :
    l.all (fun x => decide (x < 256)) = true →
      ∀ k, (Buf.ofList l).data k < 256 := by
  induction l with
  | nil =>
    intro _ k
    show List.getD [] k 0 < 256
    simp [List.getD]
  | cons a t ih =>
    intro h k
    simp only [List.all_cons, Bool.and_eq_true, decide_eq_true_eq] at h
    cases k with
    | zero => exact h.1
    | succ n => exact ih (by simpa using h.2) n

theorem injAt_payload (z : ApkSign) (data : Buf) (idx k : Nat)
    (hk : k < data.size) (hidx : idx = eofOf z + k) :
    (injectedBuf z data).data idx = data.data k := by
  subst hidx
  exact injectedBuf_data_payload z data k hk

theorem injAt_eocd (z : ApkSign) (data : Buf) (idx src r : Nat)
    (hv : ValidOffsets z) (hr : r < z.raw.size - z.eocdOffset)
    (hside : r < 16 ∨ 20 ≤ r)
    (hidx : idx = eofOf z + data.size + (z.eocdOffset - z.cdOffset) + r)
    (hsrc : src = z.eocdOffset + r) :
    (injectedBuf z data).data idx = z.raw.data src := by
  subst hidx
  subst hsrc
  exact injectedBuf_data_eocd z data r hv hr hside

theorem injAt_cd (z : ApkSign) (data : Buf) (idx src m : Nat)
    (hv : ValidOffsets z) (hmlt : z.cdOffset + m < z.raw.size)
    (hm : m < z.eocdOffset - z.cdOffset + 16)
    (hidx : idx = eofOf z + data.size + m) (hsrc : src = z.cdOffset + m) :
    (injectedBuf z data).data idx = z.raw.data src := by
  by_cases hc : m < z.eocdOffset - z.cdOffset
  · subst hidx
    subst hsrc
    exact injectedBuf_data_cd z data m hc
  · obtain ⟨h1, h2, h3, h4⟩ := hv
    have heq : idx = eofOf z + data.size + (z.eocdOffset - z.cdOffset) +
        (m - (z.eocdOffset - z.cdOffset)) := by omega
    have hsrc2 : src = z.eocdOffset + (m - (z.eocdOffset - z.cdOffset)) := by
      omega
    rw [heq, hsrc2]
    exact injectedBuf_data_eocd z data (m - (z.eocdOffset - z.cdOffset))
      ⟨h1, h2, h3, h4⟩ (by omega) (by omega)

theorem scanLoop_step_ok (reader : EntryReader) (b : Buf) (fuel i : Nat)
    (names : List String) (cd post : Nat)
    (hin : 22 + i ≤ b.size)
    (hm : readU32 b (b.size - 22 - i) = 0x06054b50)
    (hecho : readU16 b (b.size - 22 - i + 20) = i % 65536)
    (hcd : readU32 b (b.size - 22 - i + 16) = cd)
    (hcd4 : cd + 4 ≤ b.size)
    (hcdm : readU32 b cd = 0x02014b50)
    (hadj : cd + readU32 b (b.size - 22 - i + 12) = b.size - 22 - i)
    (hr : reader b = some names)
    (hsig : sigMagicCheck b (cd - 16) = true)
    (h24 : 24 ≤ cd)
    (hpost : readU64 b (cd - 24) = post)
    (hw63 : wrapSub cd post < 9223372036854775808)
    (hw8 : wrapSub cd post + 8 ≤ b.size)
    (hpre : readU64 b (wrapSub cd post) = post)
    (hp24 : 24 ≤ post)
    (hp63 : post - 24 < 9223372036854775808) :
    scanLoop reader b (fuel + 1) i =
      .ok ⟨isApkNames names, decide (0 < wrapSub cd post), b, b.size,
        b.size - 22 - i, cd, wrapSub cd post,
        ⟨post - 24,
         fun k => if k < post - 24 then b.data (wrapSub cd post + 8 + k)
                  else 0⟩⟩ := by
  rw [scanLoop_succ]
  simp only [scanStep]
  rw [if_neg (by omega), if_neg (not_not_intro hm),
    if_neg (not_not_intro hecho), hcd, if_neg (by omega),
    if_neg (not_not_intro hcdm), if_neg (not_not_intro hadj)]
  simp only [hr]
  rw [if_neg (by omega), if_pos hsig, if_neg (by omega), hpost,
    if_neg (by omega), hpre, if_pos rfl, if_neg (by omega)]

/-- C5 is refuted: injecting the valid size-matched block `cexP` into the
located descriptor of `cexO` produces a buffer on which re-running locate
FAILS with `CDNotAdjacentToEOCD` instead of succeeding — the spoofed EOCD
window inside the preserved trailing comment now points at CD-magic bytes
that the new payload placed at offset 30, so it corroborates and its bogus
adjacency aborts the scan. -/
theorem c5_roundtrip_cex :
    IsValidBlockB cexP = true ∧
    ((NewApkSign someReader cexO).getOk.map fun z =>
        (NewApkSign someReader (injectResult z cexP)).errOf) =
      some (some .cdNotAdjacent) := by
  decide

/-- C5 (amended): for a descriptor whose located EOCD carries an empty
comment (so no comment bytes survive into the injected image to spoof the
re-scan), a payload that is a valid size-matched signing block, an
insertion point plus payload length below `2^32` (no CD-offset truncation),
and an entry reader that succeeds on the injected buffer, the round trip
holds: re-locating reports `hasV2Signature = true`, `asv2Offset` equal to
the insertion point, the CD immediately after the payload, the EOCD right
after the CD, and an extracted payload byte-for-byte equal to the block's
inner content.  The `hsize` bound only restates Go's own domain: a slice
length is an `int64`, so every real buffer is smaller than `2^63`. -/
theorem c5_roundtrip_amended
    (reader reader2 : EntryReader) (b P : Buf) (z : ApkSign)
    (names : List String) (k : Nat)
    (hok : NewApkSign reader b = .ok z)
    (hsize : b.size < 9223372036854775808)
    (hcomment : z.eocdOffset + 22 = b.size)
    (hP32 : 32 ≤ P.size)
    (hPpre : readU64 P 0 = P.size - 8)
    (hPpost : readU64 P (P.size - 24) = P.size - 8)
    (hPmagic : sigMagicCheck P (P.size - 16) = true)
    (hfit : eofOf z + P.size < 4294967296)
    (hreader2 : reader2 (injectResult z P) = some names)
    (hk : k < P.size - 32) :
    (InjectBeforeCD z P).isSome = true ∧
    (NewApkSign reader2 (injectResult z P)).isV2Of = some true ∧
    (NewApkSign reader2 (injectResult z P)).asv2Of = some (eofOf z) ∧
    (NewApkSign reader2 (injectResult z P)).cdOf =
      some (eofOf z + P.size) ∧
    (NewApkSign reader2 (injectResult z P)).eocdOf =
      some (eofOf z + P.size + (z.eocdOffset - z.cdOffset)) ∧
    (NewApkSign reader2 (injectResult z P)).payloadLenOf =
      some (P.size - 32) ∧
    (NewApkSign reader2 (injectResult z P)).payloadByteOf k =
      some (P.data (8 + k)) := by
  have facts := newApkSign_ok_facts reader b z hok
  have hraw : z.raw = b := facts.raw_eq
  have hsz : z.size = b.size := facts.size_eq
  have hrs : z.raw.size = b.size := by rw [hraw]
  have hadj := facts.adjacent
  have hcd_le_e : z.cdOffset ≤ z.eocdOffset := by omega
  have hcdlen : readU32 b (z.eocdOffset + 12) =
      z.eocdOffset - z.cdOffset := by omega
  have hecho0 : readU16 b (z.eocdOffset + 20) = 0 := by
    have h1 := facts.comment_echo
    omega
  have hvalid : ValidOffsets z :=
    ⟨facts.asv2_le hsize, hcd_le_e, by omega, by omega⟩
  have heof_le : eofOf z ≤ z.cdOffset := eofOf_le_cd z (facts.asv2_le hsize)
  have heof_pos : 0 < eofOf z := by
    have h16 := facts.cd_ge16
    unfold eofOf
    split
    · omega
    · omega
  have hinj : InjectBeforeCD z P = some (injectedBuf z P) := by
    unfold InjectBeforeCD
    rw [if_pos hvalid]
  have hres : injectResult z P = injectedBuf z P := by
    unfold injectResult
    rw [hinj]
    rfl
  have hnbsize : (injectedBuf z P).size =
      eofOf z + P.size + (z.eocdOffset - z.cdOffset) + 22 := by
    have h1 := injectedBuf_size z P
    omega
  have hbE : ∀ idx src r, r < 22 → (r < 16 ∨ 20 ≤ r) →
      idx = eofOf z + P.size + (z.eocdOffset - z.cdOffset) + r →
      src = z.eocdOffset + r →
      (injectedBuf z P).data idx = b.data src := by
    intro idx src r h1 h2 h3 h4
    have hx := injAt_eocd z P idx src r hvalid (by omega) h2 h3 h4
    rwa [hraw] at hx
  have hbC : ∀ idx src m, m < 4 →
      idx = eofOf z + P.size + m → src = z.cdOffset + m →
      (injectedBuf z P).data idx = b.data src := by
    intro idx src m h1 h2 h3
    have hcd4 := facts.cd_lt
    have hx := injAt_cd z P idx src m hvalid (by omega) (by omega) h2 h3
    rwa [hraw] at hx
  have hbP : ∀ idx k2, k2 < P.size → idx = eofOf z + k2 →
      (injectedBuf z P).data idx = P.data k2 :=
    fun idx k2 ha hb => injAt_payload z P idx k2 ha hb
  have g1 : 22 + 0 ≤ (injectedBuf z P).size := by omega
  have g2 : readU32 (injectedBuf z P) ((injectedBuf z P).size - 22 - 0) =
      0x06054b50 := by
    have hx := readU32_map (injectedBuf z P) b
      ((injectedBuf z P).size - 22 - 0) z.eocdOffset
      (hbE _ _ 0 (by omega) (by omega) (by omega) (by omega))
      (hbE _ _ 1 (by omega) (by omega) (by omega) (by omega))
      (hbE _ _ 2 (by omega) (by omega) (by omega) (by omega))
      (hbE _ _ 3 (by omega) (by omega) (by omega) (by omega))
    rw [hx]
    exact facts.eocd_magic
  have g3 : readU16 (injectedBuf z P)
      ((injectedBuf z P).size - 22 - 0 + 20) = 0 % 65536 := by
    have hx := readU16_map (injectedBuf z P) b
      ((injectedBuf z P).size - 22 - 0 + 20) (z.eocdOffset + 20)
      (hbE _ _ 20 (by omega) (by omega) (by omega) (by omega))
      (hbE _ _ 21 (by omega) (by omega) (by omega) (by omega))
    rw [hx, hecho0]
  have g4 : readU32 (injectedBuf z P)
      ((injectedBuf z P).size - 22 - 0 + 16) = eofOf z + P.size := by
    have e0 := injectedBuf_data_patch z P
      ((injectedBuf z P).size - 22 - 0 + 16) 0 hvalid (by omega) (by omega)
    have e1 := injectedBuf_data_patch z P
      ((injectedBuf z P).size - 22 - 0 + 16 + 1) 1 hvalid (by omega)
      (by omega)
    have e2 := injectedBuf_data_patch z P
      ((injectedBuf z P).size - 22 - 0 + 16 + 2) 2 hvalid (by omega)
      (by omega)
    have e3 := injectedBuf_data_patch z P
      ((injectedBuf z P).size - 22 - 0 + 16 + 3) 3 hvalid (by omega)
      (by omega)
    simp only [readU32]
    rw [e0, e1, e2, e3]
    norm_num
    omega
  have g5 : readU32 (injectedBuf z P) (eofOf z + P.size) = 0x02014b50 := by
    have hx := readU32_map (injectedBuf z P) b (eofOf z + P.size) z.cdOffset
      (hbC _ _ 0 (by omega) (by omega) (by omega))
      (hbC _ _ 1 (by omega) (by omega) (by omega))
      (hbC _ _ 2 (by omega) (by omega) (by omega))
      (hbC _ _ 3 (by omega) (by omega) (by omega))
    rw [hx]
    exact facts.cd_magic
  have g6 : readU32 (injectedBuf z P)
      ((injectedBuf z P).size - 22 - 0 + 12) =
      z.eocdOffset - z.cdOffset := by
    have hx := readU32_map (injectedBuf z P) b
      ((injectedBuf z P).size - 22 - 0 + 12) (z.eocdOffset + 12)
      (hbE _ _ 12 (by omega) (by omega) (by omega) (by omega))
      (hbE _ _ 13 (by omega) (by omega) (by omega) (by omega))
      (hbE _ _ 14 (by omega) (by omega) (by omega) (by omega))
      (hbE _ _ 15 (by omega) (by omega) (by omega) (by omega))
    rw [hx, hcdlen]
  have g7 : eofOf z + P.size + readU32 (injectedBuf z P)
      ((injectedBuf z P).size - 22 - 0 + 12) =
      (injectedBuf z P).size - 22 - 0 := by
    rw [g6]
    omega
  have hreader2b : reader2 (injectedBuf z P) = some names := by
    rw [← hres]
    exact hreader2
  have g9 : sigMagicCheck (injectedBuf z P) (eofOf z + P.size - 16) =
      true := by
    rw [sigMagicCheck_iff]
    intro j hj
    have hx := hbP (eofOf z + P.size - 16 + j) (P.size - 16 + j) (by omega)
      (by omega)
    rw [hx]
    exact (sigMagicCheck_iff P (P.size - 16)).mp hPmagic j hj
  have g11 : readU64 (injectedBuf z P) (eofOf z + P.size - 24) =
      P.size - 8 := by
    have hx := readU64_map (injectedBuf z P) P (eofOf z + P.size - 24)
      (P.size - 24)
      (hbP _ _ (by omega) (by omega)) (hbP _ _ (by omega) (by omega))
      (hbP _ _ (by omega) (by omega)) (hbP _ _ (by omega) (by omega))
      (hbP _ _ (by omega) (by omega)) (hbP _ _ (by omega) (by omega))
      (hbP _ _ (by omega) (by omega)) (hbP _ _ (by omega) (by omega))
    rw [hx]
    exact hPpost
  have hidx0 : wrapSub (eofOf z + P.size) (P.size - 8) = eofOf z := by
    rw [wrapSub_def]
    omega
  have g13 : readU64 (injectedBuf z P)
      (wrapSub (eofOf z + P.size) (P.size - 8)) = P.size - 8 := by
    rw [hidx0]
    have hx := readU64_map (injectedBuf z P) P (eofOf z) 0
      (hbP _ _ (by omega) (by omega)) (hbP _ _ (by omega) (by omega))
      (hbP _ _ (by omega) (by omega)) (hbP _ _ (by omega) (by omega))
      (hbP _ _ (by omega) (by omega)) (hbP _ _ (by omega) (by omega))
      (hbP _ _ (by omega) (by omega)) (hbP _ _ (by omega) (by omega))
    rw [hx]
    exact hPpre
  have hstep := scanLoop_step_ok reader2 (injectedBuf z P) 65534 0 names
    (eofOf z + P.size) (P.size - 8) g1 g2 g3 g4 (by omega) g5 g7 hreader2b
    g9 (by omega) g11 (by rw [hidx0]; omega) (by rw [hidx0]; omega) g13
    (by omega) (by omega)
  have hNew : NewApkSign reader2 (injectedBuf z P) =
      scanLoop reader2 (injectedBuf z P) 65535 0 := by
    unfold NewApkSign
    rw [if_neg (by omega)]
  rw [hres, hNew, show (65535 : Nat) = 65534 + 1 from rfl, hstep]
  refine ⟨by rw [hinj]; rfl, ?_, ?_, ?_, ?_, ?_, ?_⟩
  · simp only [Outcome.isV2Of, Outcome.getOk, Option.map_some',
      Option.some.injEq]
    rw [hidx0, decide_eq_true_eq]
    exact heof_pos
  · simp only [Outcome.asv2Of, Outcome.getOk, Option.map_some',
      Option.some.injEq]
    exact hidx0
  · simp only [Outcome.cdOf, Outcome.getOk, Option.map_some']
  · simp only [Outcome.eocdOf, Outcome.getOk, Option.map_some',
      Option.some.injEq]
    omega
  · simp only [Outcome.payloadLenOf, Outcome.getOk, Option.map_some',
      Option.some.injEq]
    omega
  · simp only [Outcome.payloadByteOf, Outcome.getOk, Option.map_some',
      Option.some.injEq]
    rw [if_pos (by omega)]
    rw [hidx0]
    exact hbP _ _ (by omega) (by omega)

theorem c5_roundtrip_witness :
    (InjectBeforeCD z8model p40).isSome = true ∧
    (NewApkSign someReader (injectResult z8model p40)).isV2Of =
      some true ∧
    (NewApkSign someReader (injectResult z8model p40)).asv2Of =
      some (eofOf z8model) ∧
    (NewApkSign someReader (injectResult z8model p40)).cdOf =
      some (eofOf z8model + p40.size) ∧
    (NewApkSign someReader (injectResult z8model p40)).eocdOf =
      some (eofOf z8model + p40.size +
        (z8model.eocdOffset - z8model.cdOffset)) ∧
    (NewApkSign someReader (injectResult z8model p40)).payloadLenOf =
      some (p40.size - 32) ∧
    (NewApkSign someReader (injectResult z8model p40)).payloadByteOf 0 =
      some (p40.data (8 + 0)) :=
  c5_roundtrip_amended someReader someReader b8 p40 z8model [] 0 rfl
    (by decide) (by decide) (by decide) (by decide) (by decide) (by decide)
    (by decide) rfl (by decide)
